import Mathlib

set_option maxRecDepth 100000

/-!
Verification of the attendance-tracking application in `src/server.ts`.

The file contains a shallow embedding of the server (Express + SQLite part,
lines 1-168 of the source) and of the client view-state handlers (React part
of the same file), followed by theorems about the embedded operations.

Modelling conventions:
* SQLite rows are Lean structures; the two tables are lists of rows kept in
  insertion order (SQLite rowid order, which is the order `SELECT` without
  `ORDER BY` returns and the order `AUTOINCREMENT` assigns).
* Machine integers of the source are `Int` (JavaScript numbers restricted to
  the integral values the claims quantify over; no floating point is used by
  any claim).
* The exceptional SQLite paths (a `StorageError` in the spec's taxonomy) are
  not reachable in the pure model: the embedded operations model the
  exception-free executions of the handlers.
-/

/-- The fixed ordered date-label sequence (source lines 14-19). -/
def MEETING_DATES : List String :=
  ["3/8", "3/15", "3/22",
   "4/12", "4/19",
   "5/10", "5/17", "5/24",
   "6/14", "6/21"]

/-- The fixed seed participant-name list (source lines 21-26). -/
def INITIAL_NAMES : List String :=
  ["배다희", "손여원", "김태린", "현요섭", "김승우",
   "이은총", "조영광", "문하은", "최예인", "로이",
   "서다현", "사예한", "이다율", "방태산", "이은서",
   "민유진", "이태은", "허진주", "오나윤", "시온"]

/-- `N`, the number of meeting slots: `MEETING_DATES.length` (= 10). -/
def numDates : Nat := MEETING_DATES.length

/-- One row of the `attendance` table (source lines 39-45):
`(student_id, date_index, status)` with `PRIMARY KEY (student_id, date_index)`. -/
structure Row where
  sid : Int
  idx : Int
  status : Int
deriving DecidableEq

/-- The database state: the `students` table (id, name) and the `attendance`
table, each in rowid (insertion) order. -/
structure DB where
  students : List (Int × String)
  attendance : List Row
deriving DecidableEq

/-- A fresh database file: both tables empty. -/
def emptyDB : DB := ⟨[], []⟩

/-- The students the seed transaction inserts (source lines 54-63):
`AUTOINCREMENT` ids 1, 2, ... in the order of `INITIAL_NAMES`. -/
def seedStudents : List (Int × String) :=
  INITIAL_NAMES.enum.map (fun p => ((p.1 + 1 : Int), p.2))

/-- The attendance rows the seed transaction inserts: for each student, one
row `(id, i, 0)` per `i < MEETING_DATES.length`, grouped by student in
insertion order (source lines 55-61). -/
def seedAttendance : List Row :=
  seedStudents.flatMap (fun s => (List.range numDates).map (fun i => ⟨s.1, (i : Int), 0⟩))

/-- The database produced by seeding a fresh database. -/
def seededDB : DB := ⟨seedStudents, seedAttendance⟩

/-- The seed-if-empty startup block (source lines 49-65): the seed transaction
runs iff `SELECT count(*) FROM students` is 0.  The SQLite transaction is a
single atomic state transition, which the model renders as a single pure
update with no intermediate states. -/
def seedIfEmpty (db : DB) : DB :=
  if db.students.length = 0 then
    { students := seedStudents, attendance := db.attendance ++ seedAttendance }
  else db

/-- A JSON body value, as JavaScript sees `req.body.studentId` /
`req.body.dateIndex` (source line 107).  Numbers are restricted to integral
values; no claim exercises non-integral numbers (for which JavaScript
falsiness would additionally make `NaN` falsy). -/
inductive JSValue where
  | undefined : JSValue
  | null : JSValue
  | boolean : Bool → JSValue
  | number : Int → JSValue
  | string : String → JSValue
deriving DecidableEq

/-- JavaScript falsiness of a body value: `undefined`, `null`, `false`, `0`
and `""` are falsy; everything else modelled is truthy. -/
def jsFalsy : JSValue → Bool
  | .undefined => true
  | .null => true
  | .boolean b => !b
  | .number n => n == 0
  | .string s => s == ""

/-- The toggle endpoint's parameter check (source line 109):
`if (!studentId || dateIndex === undefined)` — the request is rejected with
400 and the handler returns before touching the database iff this is true;
otherwise control reaches the database path (the `try` block, line 114). -/
def toggleRejected (studentId dateIndex : JSValue) : Bool :=
  jsFalsy studentId || dateIndex == JSValue.undefined

/-- A WebSocket connection held in `wss.clients`; `readyState` as in the
`ws` library (`WebSocket.OPEN = 1`). -/
structure Client where
  readyState : Nat
deriving DecidableEq

/-- `WebSocket.OPEN`. -/
def wsOPEN : Nat := 1

/-- The broadcast message (source lines 131-134):
`{ type: 'UPDATE_ATTENDANCE', payload: { studentId, dateIndex, status } }`
(the constant `type` tag is implicit in the structure). -/
structure Event where
  studentId : Int
  dateIndex : Int
  status : Int
deriving DecidableEq

/-- The HTTP response of the toggle endpoint. -/
inductive ToggleResp where
  | badRequest : ToggleResp
  | ok : Int → ToggleResp
deriving DecidableEq

/-- Everything observable about one run of the toggle handler: the database
after the run, the HTTP response, the broadcast message (if any) and the
list of connections it was sent to. -/
structure ToggleOut where
  db : DB
  response : ToggleResp
  broadcast : Option Event
  sent : List Client
deriving DecidableEq

/-- `newStatus = current.status === 1 ? 0 : 1` (source line 121). -/
def flipStatus (st : Int) : Int := if st == 1 then 0 else 1

/-- The effect of
`UPDATE attendance SET status = ? WHERE student_id = ? AND date_index = ?`
(source lines 122-123) on a single row. -/
def updRow (studentId dateIndex v : Int) (r : Row) : Row :=
  if r.sid == studentId && r.idx == dateIndex then { r with status := v } else r

/-- The toggle endpoint (source lines 106-147) for a request body carrying
two JavaScript numbers.  After the line-109 check (for a number,
`!studentId` iff it is 0, and a number is never `=== undefined`), the
handler reads the current row (`find?` = the first match in rowid order),
and either flips and `UPDATE`s it, or — when no row exists — `INSERT`s
`(studentId, dateIndex, 1)`; it then broadcasts to every connection with
`readyState === OPEN` and answers `{success, newStatus}`. -/
def toggleRoute (db : DB) (clients : List Client) (studentId dateIndex : Int) : ToggleOut :=
  if toggleRejected (.number studentId) (.number dateIndex) then
    ⟨db, .badRequest, none, []⟩
  else
    match db.attendance.find? (fun r => r.sid == studentId && r.idx == dateIndex) with
    | some row =>
        ⟨{ db with attendance :=
             db.attendance.map (updRow studentId dateIndex (flipStatus row.status)) },
         .ok (flipStatus row.status),
         some ⟨studentId, dateIndex, flipStatus row.status⟩,
         clients.filter (fun c => c.readyState == wsOPEN)⟩
    | none =>
        ⟨{ db with attendance := db.attendance ++ [⟨studentId, dateIndex, 1⟩] },
         .ok 1,
         some ⟨studentId, dateIndex, 1⟩,
         clients.filter (fun c => c.readyState == wsOPEN)⟩

/-- The status stored for a pair, read the way the handler reads it
(first matching row in rowid order). -/
def statusAt (db : DB) (studentId dateIndex : Int) : Option Int :=
  (db.attendance.find? (fun r => r.sid == studentId && r.idx == dateIndex)).map (·.status)

/-- One element of the snapshot the read-all endpoint returns, and equally
the client's local `Student` record: `{ id, name, attendance }`. -/
structure Student where
  id : String
  name : String
  attendance : List Int
deriving DecidableEq

/-- `studentAttendance[date_index] = status` as JavaScript executes it on a
dense array (source lines 86-88): the code guards `date_index < N`; an
assignment at a negative index stores a non-index property that is invisible
in the dense array (and in its JSON serialization), so the observable array
is unchanged unless `0 ≤ i < length`. -/
def setIdxJS (arr : List Int) (i : Int) (v : Int) : List Int :=
  if 0 ≤ i ∧ i < (arr.length : Int) then arr.set i.toNat v else arr

/-- The snapshot entry built for one student (source lines 81-96): a
`new Array(N).fill(0)` overwritten, in rowid order, by every attendance row
whose `student_id` strictly equals the student's id. -/
def entryFor (db : DB) (s : Int × String) : Student :=
  ⟨toString s.1, s.2,
   (db.attendance.filter (fun r => r.sid == s.1)).foldl
     (fun arr r => setIdxJS arr r.idx r.status)
     (List.replicate numDates 0)⟩

/-- Strict lexicographic comparison of two character lists by Unicode code
point.  UTF-8 encoding preserves code-point order byte-wise, so this is
exactly SQLite's default BINARY collation (byte comparison) on TEXT values
read as Unicode strings. -/
def dataLtb : List Char → List Char → Bool
  | [], [] => false
  | [], _ :: _ => true
  | _ :: _, [] => false
  | a :: as, b :: bs => if a = b then dataLtb as bs else decide (a < b)

/-- BINARY-collation `≤` on strings (total preorder: `s ≤ t` iff `¬ t < s`). -/
def nameLe (s t : String) : Bool := ! dataLtb t.data s.data

/-- `SELECT * FROM students ORDER BY name ASC` (source line 77), i.e. the
students sorted by name under SQLite's default BINARY collation. -/
def sortStudents (l : List (Int × String)) : List (Int × String) :=
  List.insertionSort (fun a b => nameLe a.2 b.2 = true) l

/-- The read-all endpoint `GET /api/students` (source lines 75-103). -/
def listSnapshot (db : DB) : List Student :=
  (sortStudents db.students).map (entryFor db)

/-- The store invariant of the spec's data model: exactly one attendance
mark for every (participant, date index) pair with the index in range, and
no mark with an out-of-range date index. -/
def markInvariant (db : DB) : Prop :=
  (∀ s ∈ db.students, ∀ i : Nat, i < numDates →
     (db.attendance.filter (fun r => r.sid == s.1 && r.idx == (i : Int))).length = 1)
  ∧ ∀ r ∈ db.attendance, 0 ≤ r.idx ∧ r.idx < (numDates : Int)

instance (db : DB) : Decidable (markInvariant db) := by
  unfold markInvariant
  infer_instance

/-- The modern Hangul syllables: the Unicode block U+AC00 .. U+D7A3, in
which the code point is `0xAC00 + (lead * 21 + vowel) * 28 + tail` for the
jamo indices (lead consonant, vowel, tail consonant) of the syllable. -/
def hangulChar (c : Char) : Prop := 0xAC00 ≤ c.toNat ∧ c.toNat ≤ 0xD7A3

instance (c : Char) : Decidable (hangulChar c) := by
  unfold hangulChar
  infer_instance

/-- A string consisting only of modern Hangul syllables. -/
def hangulString (s : String) : Prop := ∀ c ∈ s.data, hangulChar c

instance (s : String) : Decidable (hangulString s) := by
  unfold hangulString
  infer_instance

/-- The jamo decomposition of a Hangul syllable: the triple
(lead-consonant index, vowel index, tail-consonant index), the sequence of
letters a Korean dictionary collates by. -/
def charKey (c : Char) : Nat × Nat × Nat :=
  ((c.toNat - 0xAC00) / 588, (c.toNat - 0xAC00) % 588 / 28, (c.toNat - 0xAC00) % 28)

/-- Strict lexicographic comparison of jamo triples. -/
def tLtb (a b : Nat × Nat × Nat) : Bool :=
  a.1 < b.1 || (a.1 == b.1 && (a.2.1 < b.2.1 || (a.2.1 == b.2.1 && a.2.2 < b.2.2)))

/-- Strict lexicographic comparison of jamo-triple sequences. -/
def keyLtb : List (Nat × Nat × Nat) → List (Nat × Nat × Nat) → Bool
  | [], [] => false
  | [], _ :: _ => true
  | _ :: _, [] => false
  | a :: as, b :: bs => tLtb a b || (a == b && keyLtb as bs)

/-- The jamo-triple sequence of a string. -/
def koKey (s : String) : List (Nat × Nat × Nat) := s.data.map charKey

/-- Korean-locale collation, strictly: jamo-by-jamo dictionary comparison.
On strings of modern Hangul syllables this is the order
`String.prototype.localeCompare(·, 'ko')` (ICU Korean collation) realises. -/
def koLtb (s t : String) : Bool := keyLtb (koKey s) (koKey t)

/-- Korean-locale collation, non-strictly: `s` is not after `t`. -/
def koLeB (s t : String) : Bool := ! koLtb t s

/-- The client's handler for a realtime change event on the `attendance`
table (source lines 530-547): for the student whose (string) id equals
`String(student_id)` of the changed row, the local mark at the row's
`date_index` is overwritten with the row's `status` (the same
guarded dense-array assignment as `setIdxJS`); every other student is
returned unchanged. -/
def applyRealtimeEvent (students : List Student) (sid : Int) (dateIndex : Int)
    (status : Int) : List Student :=
  students.map (fun st =>
    if st.id == toString sid then
      { st with attendance := setIdxJS st.attendance dateIndex status }
    else st)

/-- The client view state the claims observe: the local roster and the
connectivity flag. -/
structure ClientState where
  students : List Student
  isConnected : Bool
deriving DecidableEq

/-- `Array.prototype.sort` with the comparator
`(a, b) => a.name.localeCompare(b.name, 'ko')` (source lines 500 and 513). -/
def sortByNameKo (l : List Student) : List Student :=
  List.insertionSort (fun a b => koLeB a.name b.name = true) l

/-- The synthetic roster the client builds when the initial fetch fails
(source lines 509-514): one student per seed name with id `String(index+1)`
and an all-zero mark array, sorted by Korean-locale name comparison. -/
def fallbackStudents : List Student :=
  sortByNameKo (INITIAL_NAMES.enum.map
    (fun p => ⟨toString ((p.1 : Int) + 1), p.2, List.replicate numDates 0⟩))

/-- The client's initial load (source lines 461-521), as a function of the
fetch outcome (`some` merged data, or `none` for a failed fetch).  The
fetch-and-merge runs once (the effect has an empty dependency list); on
failure the state is replaced by the synthetic fallback roster and the
view marks itself disconnected — no retry is issued, there is no further
transition out of the failure state. -/
def initClient (fetched : Option (List Student)) : ClientState :=
  match fetched with
  | some data => ⟨sortByNameKo data, true⟩
  | none => ⟨fallbackStudents, false⟩

/-- Adjacent-pairs check: every entry of the list is `koLeB`-before the
next, i.e. the list is non-decreasing under Korean-locale comparison. -/
def koSortedB : List String → Bool
  | [] => true
  | [_] => true
  | a :: b :: t => koLeB a b && koSortedB (b :: t)

/-- A store holding one participant and no attendance rows — an
"incompletely-seeded" state the read-all endpoint must tolerate. -/
def partialDB : DB := ⟨[(1, "가")], []⟩

/-- A small well-formed store: one participant with a complete all-absent
mark row. -/
def miniDB : DB := ⟨[(1, "가")], (List.range numDates).map (fun i => ⟨1, (i : Int), 0⟩)⟩

section CollationBridge

theorem char_lt_iff_toNat {a b : Char} : a < b ↔ a.toNat < b.toNat := Iff.rfl

theorem char_eq_iff_toNat {a b : Char} : a = b ↔ a.toNat = b.toNat := by
  constructor
  · intro h
    rw [h]
  · intro h
    exact Char.eq_of_val_eq (UInt32.ext h)

theorem tLtb_charKey {a b : Char} (ha : hangulChar a) (hb : hangulChar b) :
    tLtb (charKey a) (charKey b) = true ↔ a < b := by
  obtain ⟨ha1, ha2⟩ := ha
  obtain ⟨hb1, hb2⟩ := hb
  rw [char_lt_iff_toNat]
  simp only [tLtb, charKey, Bool.or_eq_true, decide_eq_true_eq, Bool.and_eq_true, beq_iff_eq]
  omega

theorem charKey_inj {a b : Char} (ha : hangulChar a) (hb : hangulChar b) :
    charKey a = charKey b ↔ a = b := by
  obtain ⟨ha1, ha2⟩ := ha
  obtain ⟨hb1, hb2⟩ := hb
  rw [char_eq_iff_toNat]
  simp only [charKey, Prod.mk.injEq]
  omega

theorem keyLtb_eq_dataLtb :
    ∀ x y : List Char, (∀ c ∈ x, hangulChar c) → (∀ c ∈ y, hangulChar c) →
      keyLtb (x.map charKey) (y.map charKey) = dataLtb x y := by
  intro x
  induction x with
  | nil =>
      intro y _ _
      cases y <;> rfl
  | cons a as ih =>
      intro y hx hy
      cases y with
      | nil => rfl
      | cons b bs =>
          have ha : hangulChar a := hx a (by simp)
          have hb : hangulChar b := hy b (by simp)
          have has : ∀ c ∈ as, hangulChar c := fun c hc => hx c (by simp [hc])
          have hbs : ∀ c ∈ bs, hangulChar c := fun c hc => hy c (by simp [hc])
          simp only [List.map_cons, keyLtb, dataLtb]
          by_cases hab : a = b
          · subst hab
            have h1 : tLtb (charKey a) (charKey a) = false := by
              simp [tLtb]
            simp [h1, ih bs has hbs]
          · have h1 : (charKey a == charKey b) = false := by
              simp only [beq_eq_false_iff_ne, ne_eq]
              exact fun h => hab ((charKey_inj ha hb).mp h)
            have h2 : tLtb (charKey a) (charKey b) = decide (a < b) := by
              by_cases hlt : a < b
              · simp [hlt, (tLtb_charKey ha hb).mpr hlt]
              · simp only [hlt, decide_False]
                rw [← Bool.not_eq_true]
                intro hc
                exact hlt ((tLtb_charKey ha hb).mp hc)
            simp [h1, h2, hab]

theorem koLtb_eq_dataLtb {s t : String} (hs : hangulString s) (ht : hangulString t) :
    koLtb s t = dataLtb s.data t.data :=
  keyLtb_eq_dataLtb s.data t.data hs ht

theorem koLeB_eq_nameLe {s t : String} (hs : hangulString s) (ht : hangulString t) :
    koLeB s t = nameLe s t := by
  unfold koLeB nameLe
  rw [koLtb_eq_dataLtb ht hs]

theorem dataLtb_iff_lex :
    ∀ x y : List Char, dataLtb x y = true ↔ List.Lex (· < ·) x y := by
  intro x
  induction x with
  | nil =>
      intro y
      cases y with
      | nil =>
          simp only [dataLtb, Bool.false_eq_true, false_iff]
          exact List.Lex.not_nil_right _ _
      | cons b bs =>
          simp only [dataLtb, true_iff]
          exact List.Lex.nil
  | cons a as ih =>
      intro y
      cases y with
      | nil =>
          simp only [dataLtb, Bool.false_eq_true, false_iff]
          exact List.Lex.not_nil_right _ _
      | cons b bs =>
          simp only [dataLtb]
          by_cases hab : a = b
          · subst hab
            rw [if_pos rfl, ih bs]
            exact (List.Lex.cons_iff (r := fun x y : Char => x < y)).symm
          · simp only [if_neg hab, decide_eq_true_eq]
            constructor
            · exact fun h => List.Lex.rel h
            · intro h
              cases h with
              | cons h => exact absurd rfl hab
              | rel h => exact h

theorem dataLtb_asymm {x y : List Char} (h : dataLtb x y = true) : dataLtb y x = false := by
  rw [← Bool.not_eq_true]
  intro h'
  rw [dataLtb_iff_lex] at h h'
  exact (List.Lex.isAsymm (α := Char) (· < ·)).asymm _ _ h h'

theorem nameLe_total (s t : String) : nameLe s t = true ∨ nameLe t s = true := by
  unfold nameLe
  by_cases h : dataLtb t.data s.data = true
  · right
    rw [dataLtb_asymm h]
    rfl
  · left
    rw [Bool.not_eq_true] at h
    rw [h]
    rfl

theorem nameLe_trans {a b c : String} (h1 : nameLe a b = true) (h2 : nameLe b c = true) :
    nameLe a c = true := by
  unfold nameLe at h1 h2 ⊢
  rw [Bool.not_eq_eq_eq_not, Bool.not_true] at h1 h2 ⊢
  rw [← Bool.not_eq_true] at h1 h2 ⊢
  intro hca
  rw [dataLtb_iff_lex] at hca
  haveI hT : IsTrichotomous (List Char) (List.Lex (· < ·)) := inferInstance
  rcases hT.trichotomous a.data b.data with hab | hab | hab
  · apply h2
    rw [dataLtb_iff_lex]
    haveI hTr : IsTrans (List Char) (List.Lex (· < ·)) := inferInstance
    exact hTr.trans _ _ _ hca hab
  · exact h2 (by rw [dataLtb_iff_lex, ← hab]; exact hca)
  · exact h1 (by rw [dataLtb_iff_lex]; exact hab)

end CollationBridge

section SnapshotOrder

theorem sortStudents_sorted (l : List (Int × String)) :
    List.Pairwise (fun a b => nameLe a.2 b.2 = true) (sortStudents l) := by
  letI : IsTotal (Int × String) (fun a b => nameLe a.2 b.2 = true) :=
    ⟨fun a b => nameLe_total a.2 b.2⟩
  letI : IsTrans (Int × String) (fun a b => nameLe a.2 b.2 = true) :=
    ⟨fun _ _ _ h1 h2 => nameLe_trans h1 h2⟩
  exact List.sorted_insertionSort _ l

theorem sortStudents_perm (l : List (Int × String)) : List.Perm (sortStudents l) l :=
  List.perm_insertionSort _ l

theorem pairwise_koSortedB :
    ∀ l : List String, List.Pairwise (fun a b => koLeB a b = true) l → koSortedB l = true := by
  intro l h
  induction h with
  | nil => rfl
  | @cons a l hab _ ih =>
      cases l with
      | nil => rfl
      | cons b t =>
          simp only [koSortedB, Bool.and_eq_true]
          exact ⟨hab b (by simp), ih⟩

theorem listSnapshot_names (db : DB) :
    (listSnapshot db).map (·.name) = (sortStudents db.students).map (·.2) := by
  simp only [listSnapshot, List.map_map]
  rfl

end SnapshotOrder

/-- C4.  The snapshot returned by the read-all endpoint is ordered by
participant display name under Korean-locale collation: for any two adjacent
entries the locale comparison of their names is non-decreasing (first
conjunct, for every store whose names are modern Hangul — SQLite's BINARY
`ORDER BY name ASC` coincides with Korean collation there, which the
`CollationBridge` lemmas prove via the jamo decomposition); and the order is
not the identifier/insertion order (second conjunct: the seeded store's
snapshot does not list names in seed-insertion order, which is also the
ascending-identifier order). -/
theorem snapshot_ordered_by_korean_collation (db : DB)
    (h : ∀ s ∈ db.students, hangulString s.2) :
    koSortedB ((listSnapshot db).map (·.name)) = true ∧
      (listSnapshot seededDB).map (·.name) ≠ INITIAL_NAMES := by
  constructor
  · rw [listSnapshot_names]
    apply pairwise_koSortedB
    rw [List.pairwise_map]
    apply (sortStudents_sorted db.students).imp_of_mem
    intro a b ha hb hab
    have ha' : hangulString a.2 := h a ((sortStudents_perm db.students).mem_iff.mp ha)
    have hb' : hangulString b.2 := h b ((sortStudents_perm db.students).mem_iff.mp hb)
    rw [koLeB_eq_nameLe ha' hb']
    exact hab
  · decide

/-- Witness for C4 at the seeded store: the hypothesis (all names are
Hangul) holds for the seed list, and the seeded snapshot is non-decreasing
under Korean-locale comparison. -/
theorem snapshot_ordered_by_korean_collation_witness :
    (∀ s ∈ seededDB.students, hangulString s.2) ∧
      koSortedB ((listSnapshot seededDB).map (·.name)) = true :=
  ⟨by decide, (snapshot_ordered_by_korean_collation seededDB (by decide)).1⟩

section ListHelpers

theorem find?_map_pred {p : Row → Bool} {f : Row → Row} (hf : ∀ r, p (f r) = p r) :
    ∀ l : List Row, (l.map f).find? p = (l.find? p).map f := by
  intro l
  induction l with
  | nil => rfl
  | cons a t ih =>
      simp only [List.map_cons, List.find?_cons, hf a]
      cases p a
      · exact ih
      · rfl

theorem filter_map_pred {q : Row → Bool} {f : Row → Row} (hf : ∀ r, q (f r) = q r) :
    ∀ l : List Row, (l.map f).filter q = (l.filter q).map f := by
  intro l
  induction l with
  | nil => rfl
  | cons a t ih =>
      simp only [List.map_cons, List.filter_cons, hf a]
      cases q a
      · simpa using ih
      · simpa using ih

theorem setIdxJS_length (arr : List Int) (i v : Int) :
    (setIdxJS arr i v).length = arr.length := by
  unfold setIdxJS
  split
  · exact List.length_set ..
  · rfl

theorem setIdxJS_out_of_range {arr : List Int} {i v : Int}
    (h : ¬(0 ≤ i ∧ i < (arr.length : Int))) : setIdxJS arr i v = arr := by
  unfold setIdxJS
  rw [if_neg h]

theorem fold_setIdx_length :
    ∀ (rows : List Row) (acc : List Int),
      (rows.foldl (fun arr r => setIdxJS arr r.idx r.status) acc).length = acc.length := by
  intro rows
  induction rows with
  | nil => intro acc; rfl
  | cons r t ih =>
      intro acc
      rw [List.foldl_cons, ih, setIdxJS_length]

theorem setIdxJS_getElem_other {arr : List Int} {i v : Int} {j : Nat}
    (h : i ≠ (j : Int)) : (setIdxJS arr i v)[j]? = arr[j]? := by
  unfold setIdxJS
  split
  · rename_i hc
    apply List.getElem?_set_ne
    intro he
    apply h
    rw [← he, Int.toNat_of_nonneg hc.1]
  · rfl

theorem fold_setIdx_getElem_unchanged :
    ∀ (rows : List Row) (acc : List Int) (j : Nat),
      (∀ r ∈ rows, r.idx ≠ (j : Int)) →
      (rows.foldl (fun arr r => setIdxJS arr r.idx r.status) acc)[j]? = acc[j]? := by
  intro rows
  induction rows with
  | nil => intro acc j _; rfl
  | cons r t ih =>
      intro acc j h
      rw [List.foldl_cons, ih _ j (fun r' hr' => h r' (List.mem_cons_of_mem _ hr'))]
      exact setIdxJS_getElem_other (h r (List.mem_cons_self ..))

end ListHelpers

section SnapshotShape

theorem entryFor_name (db : DB) (s : Int × String) : (entryFor db s).name = s.2 := rfl

theorem entryFor_attendance_length (db : DB) (s : Int × String) :
    (entryFor db s).attendance.length = numDates := by
  unfold entryFor
  rw [fold_setIdx_length, List.length_replicate]

theorem entryFor_missing_zero (db : DB) (s : Int × String) (i : Nat) (hi : i < numDates)
    (h : ∀ r ∈ db.attendance, ¬(r.sid = s.1 ∧ r.idx = (i : Int))) :
    (entryFor db s).attendance[i]? = some 0 := by
  unfold entryFor
  rw [fold_setIdx_getElem_unchanged]
  · simp [hi]
  · intro r hr he
    rw [List.mem_filter, beq_iff_eq] at hr
    exact h r hr.1 ⟨hr.2, he⟩

end SnapshotShape

/-- C5.  For every store state, the read-all snapshot has one entry per
participant (its length equals the number of participants and every
participant's entry is a member), every entry's attendance array has length
exactly `N` (position `i` of the array is the mark of date index `i`), and
a (participant, date index) pair with no stored row reads as `0` instead of
failing or shortening the array. -/
theorem snapshot_never_omits (db : DB) :
    (listSnapshot db).length = db.students.length ∧
    (∀ e ∈ listSnapshot db, e.attendance.length = numDates) ∧
    (∀ s ∈ db.students, entryFor db s ∈ listSnapshot db) ∧
    (∀ s ∈ db.students, ∀ i : Nat, i < numDates →
      (∀ r ∈ db.attendance, ¬(r.sid = s.1 ∧ r.idx = (i : Int))) →
      (entryFor db s).attendance[i]? = some 0) := by
  refine ⟨?_, ?_, ?_, ?_⟩
  · rw [listSnapshot, List.length_map, (sortStudents_perm db.students).length_eq]
  · intro e he
    rw [listSnapshot, List.mem_map] at he
    obtain ⟨s, _, rfl⟩ := he
    exact entryFor_attendance_length db s
  · intro s hs
    rw [listSnapshot, List.mem_map]
    exact ⟨s, (sortStudents_perm db.students).mem_iff.mpr hs, rfl⟩
  · intro s _ i hi h
    exact entryFor_missing_zero db s i hi h

/-- Witness for C5 at `partialDB` (a participant with no stored rows): the
entry exists and index 0 reads as absent. -/
theorem snapshot_never_omits_witness :
    ((1 : Int), "가") ∈ partialDB.students ∧ 0 < numDates ∧
    (∀ r ∈ partialDB.attendance, ¬(r.sid = (1 : Int) ∧ r.idx = ((0 : Nat) : Int))) ∧
    (entryFor partialDB (1, "가")).attendance[(0 : Nat)]? = some 0 :=
  ⟨by decide, by decide, by decide,
   (snapshot_never_omits partialDB).2.2.2 (1, "가") (by decide) 0 (by decide) (by decide)⟩

section InvariantPreservation

theorem updRow_fields (sid idx v : Int) (r : Row) :
    (updRow sid idx v r).sid = r.sid ∧ (updRow sid idx v r).idx = r.idx := by
  unfold updRow
  split <;> exact ⟨rfl, rfl⟩

theorem markInvariant_toggle (db : DB) (clients : List Client) (sid idx : Int)
    (hinv : markInvariant db) (h0 : 0 ≤ idx) (hN : idx < (numDates : Int)) :
    markInvariant (toggleRoute db clients sid idx).db := by
  unfold toggleRoute
  by_cases hrej : toggleRejected (.number sid) (.number idx) = true
  · simp only [if_pos hrej]
    exact hinv
  · rw [if_neg hrej]
    cases hfind : db.attendance.find? (fun r => r.sid == sid && r.idx == idx) with
    | some row =>
        simp only
        constructor
        · intro s hs i hi
          rw [filter_map_pred (fun r => by
                have h := updRow_fields sid idx (flipStatus row.status) r
                simp only [h.1, h.2]),
              List.length_map]
          exact hinv.1 s hs i hi
        · intro r' hr'
          rw [List.mem_map] at hr'
          obtain ⟨r, hr, rfl⟩ := hr'
          have h := updRow_fields sid idx (flipStatus row.status) r
          rw [h.2]
          exact hinv.2 r hr
    | none =>
        simp only
        rw [List.find?_eq_none] at hfind
        constructor
        · intro s hs i hi
          rw [List.filter_append]
          have hnew : (List.filter (fun r => r.sid == s.1 && r.idx == (i : Int))
              [(⟨sid, idx, 1⟩ : Row)]) = [] := by
            simp only [List.filter, Bool.and_eq_true, beq_iff_eq]
            split
            · rename_i hcond
              simp only [Bool.and_eq_true, beq_iff_eq] at hcond
              exfalso
              have h1 := hinv.1 s hs i hi
              have h2 : ∃ r ∈ db.attendance, (fun r => r.sid == s.1 && r.idx == (i : Int)) r = true := by
                rcases hfilter : List.filter (fun r => r.sid == s.1 && r.idx == (i : Int)) db.attendance with _ | ⟨r, t⟩
                · rw [hfilter] at h1
                  simp at h1
                · have hrmem : r ∈ List.filter (fun r => r.sid == s.1 && r.idx == (i : Int)) db.attendance := by
                    rw [hfilter]
                    exact List.mem_cons_self ..
                  rw [List.mem_filter] at hrmem
                  exact ⟨r, hrmem.1, hrmem.2⟩
              obtain ⟨r, hrmem, hrpred⟩ := h2
              apply hfind r hrmem
              simp only [Bool.and_eq_true, beq_iff_eq] at hrpred ⊢
              rw [hrpred.1, hrpred.2, ← hcond.1, ← hcond.2]
              exact ⟨rfl, rfl⟩
            · rfl
          rw [hnew, List.append_nil]
          exact hinv.1 s hs i hi
        · intro r hr
          rw [List.mem_append] at hr
          cases hr with
          | inl h => exact hinv.2 r h
          | inr h =>
              rw [List.mem_singleton] at h
              subst h
              exact ⟨h0, hN⟩

end InvariantPreservation

/-- C2 counterexample.  The mark invariant is not preserved by every toggle:
`miniDB` satisfies it, and a toggle with the out-of-range date index 10
(`N` = 10) inserts an out-of-range attendance row, violating it. -/
theorem invariant_broken_by_out_of_range_toggle :
    markInvariant miniDB ∧ ¬ markInvariant (toggleRoute miniDB [] 1 10).db := by
  constructor
  · decide
  · decide

/-- C2 (amended).  Seeding establishes the mark invariant (exactly one mark
per (participant, in-range date index) pair and no out-of-range mark), and
every toggle whose date index is in range `0 ≤ i < N` preserves it; a
toggle with an out-of-range date index can violate it (see the
counterexample). -/
theorem invariant_seeded_and_preserved_in_range :
    markInvariant seededDB ∧
    (∀ (db : DB) (clients : List Client) (sid idx : Int),
      markInvariant db → 0 ≤ idx → idx < (numDates : Int) →
      markInvariant (toggleRoute db clients sid idx).db) := by
  constructor
  · decide
  · intro db clients sid idx hinv h0 hN
    exact markInvariant_toggle db clients sid idx hinv h0 hN

/-- Witness for C2 (amended) at `miniDB`: the invariant holds there and is
preserved by an in-range toggle. -/
theorem invariant_seeded_and_preserved_in_range_witness :
    markInvariant miniDB ∧ (0 : Int) ≤ 0 ∧ (0 : Int) < (numDates : Int) ∧
    markInvariant (toggleRoute miniDB [] 1 0).db :=
  ⟨by decide, by decide, by decide,
   invariant_seeded_and_preserved_in_range.2 miniDB [] 1 0 (by decide) (by decide) (by decide)⟩

section ToggleBranches

theorem toggleRejected_num (sid idx : Int) :
    toggleRejected (.number sid) (.number idx) = (sid == 0) := by
  simp [toggleRejected, jsFalsy]

theorem toggleRoute_rejected (db : DB) (clients : List Client) (idx : Int) :
    toggleRoute db clients 0 idx = ⟨db, .badRequest, none, []⟩ := rfl

theorem toggleRoute_found {db : DB} {clients : List Client} {sid idx : Int} {row : Row}
    (hsid : sid ≠ 0)
    (hfind : db.attendance.find? (fun r => r.sid == sid && r.idx == idx) = some row) :
    toggleRoute db clients sid idx =
      ⟨⟨db.students, db.attendance.map (updRow sid idx (flipStatus row.status))⟩,
       .ok (flipStatus row.status),
       some ⟨sid, idx, flipStatus row.status⟩,
       clients.filter (fun c => c.readyState == wsOPEN)⟩ := by
  unfold toggleRoute
  rw [toggleRejected_num, if_neg (by simp [hsid]), hfind]

theorem toggleRoute_missing {db : DB} {clients : List Client} {sid idx : Int}
    (hsid : sid ≠ 0)
    (hfind : db.attendance.find? (fun r => r.sid == sid && r.idx == idx) = none) :
    toggleRoute db clients sid idx =
      ⟨⟨db.students, db.attendance ++ [⟨sid, idx, 1⟩]⟩,
       .ok 1,
       some ⟨sid, idx, 1⟩,
       clients.filter (fun c => c.readyState == wsOPEN)⟩ := by
  unfold toggleRoute
  rw [toggleRejected_num, if_neg (by simp [hsid]), hfind]

theorem find_pred_updRow (sid idx v : Int) (r : Row) :
    ((fun r => r.sid == sid && r.idx == idx) (updRow sid idx v r)) =
      ((fun r => r.sid == sid && r.idx == idx) r) := by
  have h := updRow_fields sid idx v r
  simp only [h.1, h.2]

end ToggleBranches

/-- C3.  For a valid pair — the store holds a (first) row for
(participantId, dateIndex) with a binary status — two serialized toggles
return the mark to its original value, and each call returns exactly the
new binary value it wrote: the first answers and stores the flip of the
old status, the second answers and stores the old status again. -/
theorem toggle_twice_returns_original (db : DB) (clients : List Client) (sid idx : Int)
    (row : Row) (hsid : sid ≠ 0)
    (hfind : db.attendance.find? (fun r => r.sid == sid && r.idx == idx) = some row)
    (hbin : row.status = 0 ∨ row.status = 1) :
    (toggleRoute db clients sid idx).response = .ok (flipStatus row.status) ∧
    statusAt (toggleRoute db clients sid idx).db sid idx = some (flipStatus row.status) ∧
    (toggleRoute (toggleRoute db clients sid idx).db clients sid idx).response = .ok row.status ∧
    statusAt (toggleRoute (toggleRoute db clients sid idx).db clients sid idx).db sid idx =
      some row.status ∧
    statusAt (toggleRoute (toggleRoute db clients sid idx).db clients sid idx).db sid idx =
      statusAt db sid idx := by
  have hprow : (row.sid == sid && row.idx == idx) = true := by
    have h := List.find?_some hfind
    exact h
  have hflip : flipStatus (flipStatus row.status) = row.status := by
    rcases hbin with h | h <;> rw [h] <;> rfl
  have hupdrow : ∀ v : Int, updRow sid idx v row = { row with status := v } := by
    intro v
    unfold updRow
    rw [if_pos hprow]
  have h1 := @toggleRoute_found db clients sid idx row hsid hfind
  have hfind1 : (toggleRoute db clients sid idx).db.attendance.find?
      (fun r => r.sid == sid && r.idx == idx) =
      some { row with status := flipStatus row.status } := by
    rw [h1]
    simp only
    rw [find?_map_pred (find_pred_updRow sid idx (flipStatus row.status)) db.attendance, hfind]
    simp only [Option.map_some']
    rw [hupdrow]
  have h2 := @toggleRoute_found (toggleRoute db clients sid idx).db clients sid idx
    { row with status := flipStatus row.status } hsid hfind1
  have hfind2 : (toggleRoute (toggleRoute db clients sid idx).db clients sid idx).db.attendance.find?
      (fun r => r.sid == sid && r.idx == idx) =
      some { row with status := row.status } := by
    rw [h2]
    simp only
    rw [find?_map_pred (find_pred_updRow sid idx _) _, hfind1]
    simp only [Option.map_some']
    have hprow' : (({ row with status := flipStatus row.status } : Row).sid == sid &&
        ({ row with status := flipStatus row.status } : Row).idx == idx) = true := hprow
    unfold updRow
    rw [if_pos hprow']
    simp only [hflip]
  refine ⟨?_, ?_, ?_, ?_, ?_⟩
  · rw [h1]
  · rw [statusAt, hfind1, Option.map_some']
  · rw [h2]
    simp only [hflip]
  · rw [statusAt, hfind2, Option.map_some']
  · rw [statusAt, hfind2, Option.map_some', statusAt, hfind, Option.map_some']

/-- Witness for C3 at `miniDB`: two toggles of participant 1 at date index 0
restore the original mark. -/
theorem toggle_twice_returns_original_witness :
    (1 : Int) ≠ 0 ∧
    miniDB.attendance.find? (fun r => r.sid == (1 : Int) && r.idx == (0 : Int)) =
      some ⟨1, 0, 0⟩ ∧
    ((⟨1, 0, 0⟩ : Row).status = 0 ∨ (⟨1, 0, 0⟩ : Row).status = 1) ∧
    statusAt (toggleRoute (toggleRoute miniDB [] 1 0).db [] 1 0).db 1 0 =
      statusAt miniDB 1 0 :=
  ⟨by decide, by decide, Or.inl rfl,
   (toggle_twice_returns_original miniDB [] 1 0 ⟨1, 0, 0⟩ (by decide) (by decide)
     (Or.inl rfl)).2.2.2.2⟩

section SnapshotInvisible

theorem fold_setIdx_congr :
    ∀ (rows : List Row) (f : Row → Row) (acc : List Int),
      (∀ r ∈ rows, (f r).idx = r.idx ∧
        ((f r).status = r.status ∨ r.idx < 0 ∨ (acc.length : Int) ≤ r.idx)) →
      (rows.map f).foldl (fun arr r => setIdxJS arr r.idx r.status) acc =
        rows.foldl (fun arr r => setIdxJS arr r.idx r.status) acc := by
  intro rows
  induction rows with
  | nil => intro f acc _; rfl
  | cons r t ih =>
      intro f acc h
      have hr := h r (List.mem_cons_self ..)
      rw [List.map_cons, List.foldl_cons, List.foldl_cons]
      have hstep : setIdxJS acc (f r).idx (f r).status = setIdxJS acc r.idx r.status := by
        rcases hr.2 with hs | hout
        · rw [hr.1, hs]
        · rw [hr.1]
          have hcond : ¬(0 ≤ r.idx ∧ r.idx < (acc.length : Int)) := by omega
          unfold setIdxJS
          rw [if_neg hcond, if_neg hcond]
      rw [hstep]
      apply ih
      intro r' hr'
      have h' := h r' (List.mem_cons_of_mem _ hr')
      rwa [setIdxJS_length]

theorem entryFor_update_invisible (db : DB) (sid idx v : Int) (s : Int × String)
    (h : s.1 ≠ sid ∨ idx < 0 ∨ (numDates : Int) ≤ idx) :
    entryFor ⟨db.students, db.attendance.map (updRow sid idx v)⟩ s = entryFor db s := by
  unfold entryFor
  refine congrArg (Student.mk (toString s.1) s.2) ?_
  rw [filter_map_pred (fun r => by
        have hf := updRow_fields sid idx v r
        simp only [hf.1])]
  apply fold_setIdx_congr
  intro r hr
  have hf := updRow_fields sid idx v r
  refine ⟨hf.2, ?_⟩
  by_cases hp : (r.sid == sid && r.idx == idx) = true
  · simp only [Bool.and_eq_true, beq_iff_eq] at hp
    rcases h with hne | hout
    · exfalso
      rw [List.mem_filter, beq_iff_eq] at hr
      exact hne (hr.2 ▸ hp.1 ▸ rfl)
    · right
      rw [hp.2, List.length_replicate]
      omega
  · left
    unfold updRow
    rw [if_neg (by simpa using hp)]

theorem entryFor_insert_invisible (db : DB) (sid idx : Int) (s : Int × String)
    (h : s.1 ≠ sid ∨ idx < 0 ∨ (numDates : Int) ≤ idx) :
    entryFor ⟨db.students, db.attendance ++ [⟨sid, idx, 1⟩]⟩ s = entryFor db s := by
  unfold entryFor
  refine congrArg (Student.mk (toString s.1) s.2) ?_
  rw [List.filter_append]
  by_cases hs : (((⟨sid, idx, 1⟩ : Row)).sid == s.1) = true
  · have hfil : List.filter (fun r => r.sid == s.1) [(⟨sid, idx, 1⟩ : Row)] =
        [⟨sid, idx, 1⟩] := by
      rw [List.filter_cons, if_pos hs]
      rfl
    rw [hfil, List.foldl_append, List.foldl_cons, List.foldl_nil]
    have hlen : ((List.filter (fun r => r.sid == s.1) db.attendance).foldl
        (fun arr r => setIdxJS arr r.idx r.status) (List.replicate numDates 0)).length =
        numDates := by
      rw [fold_setIdx_length, List.length_replicate]
    rcases h with hne | hout
    · exfalso
      rw [beq_iff_eq] at hs
      exact hne (hs ▸ rfl)
    · exact setIdxJS_out_of_range (by
        rw [hlen]
        show ¬(0 ≤ idx ∧ idx < (numDates : Int))
        omega)
  · have hfil : List.filter (fun r => r.sid == s.1) [(⟨sid, idx, 1⟩ : Row)] = [] := by
      rw [List.filter_cons, if_neg (by simpa using hs)]
      rfl
    rw [hfil, List.append_nil]

theorem listSnapshot_toggle_invisible (db : DB) (clients : List Client) (sid idx : Int)
    (hsid : sid ≠ 0)
    (h : (∀ s ∈ db.students, s.1 ≠ sid) ∨ idx < 0 ∨ (numDates : Int) ≤ idx) :
    listSnapshot (toggleRoute db clients sid idx).db = listSnapshot db := by
  have hcase : ∀ s ∈ db.students, s.1 ≠ sid ∨ idx < 0 ∨ (numDates : Int) ≤ idx := by
    intro s hs
    rcases h with hall | hout
    · exact Or.inl (hall s hs)
    · exact Or.inr hout
  cases hfind : db.attendance.find? (fun r => r.sid == sid && r.idx == idx) with
  | some row =>
      rw [@toggleRoute_found db clients sid idx row hsid hfind]
      unfold listSnapshot
      apply List.map_congr_left
      intro s hs
      exact entryFor_update_invisible db sid idx (flipStatus row.status) s
        (hcase s ((sortStudents_perm db.students).mem_iff.mp hs))
  | none =>
      rw [@toggleRoute_missing db clients sid idx hsid hfind]
      unfold listSnapshot
      apply List.map_congr_left
      intro s hs
      exact entryFor_insert_invisible db sid idx s
        (hcase s ((sortStudents_perm db.students).mem_iff.mp hs))

end SnapshotInvisible

/-- C1 counterexample.  A toggle request with an in-roster participant and
the out-of-range date index 10 (`N` = 10) on the seeded store does not fail
with a validation error: it answers success with newStatus 1, mutates the
store (an attendance row is created), and broadcasts to the open
connections. -/
theorem toggle_out_of_range_accepted_counterexample :
    (toggleRoute seededDB [⟨wsOPEN⟩] 1 10).response = .ok 1 ∧
    (toggleRoute seededDB [⟨wsOPEN⟩] 1 10).db ≠ seededDB ∧
    (toggleRoute seededDB [⟨wsOPEN⟩] 1 10).broadcast = some ⟨1, 10, 1⟩ ∧
    (toggleRoute seededDB [⟨wsOPEN⟩] 1 10).sent = [⟨wsOPEN⟩] := by
  refine ⟨by decide, by decide, by decide, by decide⟩

/-- C1 (amended).  Only a falsy participantId (the number 0) makes the
toggle endpoint fail with a validation error (400, store unchanged, no
broadcast).  For a nonzero participantId, a request whose dateIndex is out
of range (`≥ N` or `≤ -1`) or whose participantId references no existing
participant is accepted: it answers success, emits a broadcast — but the
read-all snapshot is unchanged by it, because out-of-range and unknown-id
rows are invisible to the snapshot. -/
theorem toggle_invalid_request_behaviour (db : DB) (clients : List Client)
    (sid idx : Int) (hsid : sid ≠ 0)
    (h : (∀ s ∈ db.students, s.1 ≠ sid) ∨ idx < 0 ∨ (numDates : Int) ≤ idx) :
    (∃ v, (toggleRoute db clients sid idx).response = .ok v) ∧
    (toggleRoute db clients sid idx).broadcast.isSome = true ∧
    listSnapshot (toggleRoute db clients sid idx).db = listSnapshot db ∧
    (∀ i : Int, toggleRoute db clients 0 i = ⟨db, .badRequest, none, []⟩) := by
  refine ⟨?_, ?_, listSnapshot_toggle_invisible db clients sid idx hsid h, ?_⟩
  · cases hfind : db.attendance.find? (fun r => r.sid == sid && r.idx == idx) with
    | some row =>
        rw [@toggleRoute_found db clients sid idx row hsid hfind]
        exact ⟨flipStatus row.status, rfl⟩
    | none =>
        rw [@toggleRoute_missing db clients sid idx hsid hfind]
        exact ⟨1, rfl⟩
  · cases hfind : db.attendance.find? (fun r => r.sid == sid && r.idx == idx) with
    | some row =>
        rw [@toggleRoute_found db clients sid idx row hsid hfind]
        rfl
    | none =>
        rw [@toggleRoute_missing db clients sid idx hsid hfind]
        rfl
  · intro i
    exact toggleRoute_rejected db clients i

/-- Witness for C1 (amended) at `miniDB` with the out-of-range index 10:
the toggle succeeds yet the snapshot is unchanged. -/
theorem toggle_invalid_request_behaviour_witness :
    (1 : Int) ≠ 0 ∧
    ((∀ s ∈ miniDB.students, s.1 ≠ (1 : Int)) ∨ (10 : Int) < 0 ∨ (numDates : Int) ≤ 10) ∧
    listSnapshot (toggleRoute miniDB [] 1 10).db = listSnapshot miniDB :=
  ⟨by decide, Or.inr (Or.inr (by decide)),
   (toggle_invalid_request_behaviour miniDB [] 1 10 (by decide)
     (Or.inr (Or.inr (by decide)))).2.2.1⟩

/-- C6.  Seeding runs only when the students table is empty (on a non-empty
store it is the identity, so a second invocation duplicates nothing), it is
a single atomic transition, and seeding the fresh store produces exactly one
participant per seed name (the names are pairwise distinct and appear once
each, in order) with exactly `N` marks per participant — one per date index
0..N-1, all absent. -/
theorem seeding_empty_only_and_idempotent :
    (∀ db : DB, db.students ≠ [] → seedIfEmpty db = db) ∧
    seedIfEmpty emptyDB = seededDB ∧
    seedIfEmpty (seedIfEmpty emptyDB) = seedIfEmpty emptyDB ∧
    INITIAL_NAMES.Nodup ∧
    seededDB.students.map Prod.snd = INITIAL_NAMES ∧
    (∀ s ∈ seededDB.students,
      (seededDB.attendance.filter (fun r => r.sid == s.1)).map (fun r => (r.idx, r.status)) =
        (List.range numDates).map (fun i => ((i : Int), (0 : Int)))) := by
  refine ⟨?_, by decide, by decide, by decide, by decide, by decide⟩
  intro db hne
  unfold seedIfEmpty
  rw [if_neg (fun h => hne (List.length_eq_zero.mp h))]

/-- Witness for C6: invoking seeding on the already-seeded store changes
nothing. -/
theorem seeding_empty_only_and_idempotent_witness :
    seededDB.students ≠ [] ∧ seedIfEmpty seededDB = seededDB :=
  ⟨by decide, seeding_empty_only_and_idempotent.1 seededDB (by decide)⟩

/-- C7.  A toggle that passes validation (nonzero numeric participantId)
always succeeds in the exception-free model, and exactly then a single
`UPDATE_ATTENDANCE` event carrying the same (participantId, dateIndex) and
a status equal to the returned newStatus is sent to precisely the
currently-open connections — including the originator's connection if it is
open.  A rejected toggle sends nothing, to no connection, and leaves the
store unchanged. -/
theorem broadcast_on_success_only (db : DB) (clients : List Client) (sid idx : Int) :
    (sid ≠ 0 →
      ∃ v, (toggleRoute db clients sid idx).response = .ok v ∧
        (toggleRoute db clients sid idx).broadcast = some ⟨sid, idx, v⟩ ∧
        (toggleRoute db clients sid idx).sent =
          clients.filter (fun c => c.readyState == wsOPEN) ∧
        ∀ c ∈ clients, c.readyState = wsOPEN →
          c ∈ (toggleRoute db clients sid idx).sent) ∧
    (sid = 0 →
      (toggleRoute db clients sid idx).response = .badRequest ∧
      (toggleRoute db clients sid idx).broadcast = none ∧
      (toggleRoute db clients sid idx).sent = [] ∧
      (toggleRoute db clients sid idx).db = db) := by
  constructor
  · intro hsid
    cases hfind : db.attendance.find? (fun r => r.sid == sid && r.idx == idx) with
    | some row =>
        rw [@toggleRoute_found db clients sid idx row hsid hfind]
        refine ⟨flipStatus row.status, rfl, rfl, rfl, ?_⟩
        intro c hc hopen
        simp only
        rw [List.mem_filter]
        exact ⟨hc, by rw [hopen]; exact beq_self_eq_true _⟩
    | none =>
        rw [@toggleRoute_missing db clients sid idx hsid hfind]
        refine ⟨1, rfl, rfl, rfl, ?_⟩
        intro c hc hopen
        simp only
        rw [List.mem_filter]
        exact ⟨hc, by rw [hopen]; exact beq_self_eq_true _⟩
  · intro h0
    subst h0
    rw [toggleRoute_rejected]
    exact ⟨rfl, rfl, rfl, rfl⟩

/-- Witness for C7 at `miniDB` with one open and one closed connection. -/
theorem broadcast_on_success_only_witness :
    (1 : Int) ≠ 0 ∧
    ∃ v, (toggleRoute miniDB [⟨wsOPEN⟩, ⟨3⟩] 1 0).response = .ok v ∧
      (toggleRoute miniDB [⟨wsOPEN⟩, ⟨3⟩] 1 0).broadcast = some ⟨1, 0, v⟩ ∧
      (toggleRoute miniDB [⟨wsOPEN⟩, ⟨3⟩] 1 0).sent =
        List.filter (fun c => c.readyState == wsOPEN) [⟨wsOPEN⟩, ⟨3⟩] ∧
      ∀ c ∈ [(⟨wsOPEN⟩ : Client), ⟨3⟩], c.readyState = wsOPEN →
        c ∈ (toggleRoute miniDB [⟨wsOPEN⟩, ⟨3⟩] 1 0).sent :=
  ⟨by decide, (broadcast_on_success_only miniDB [⟨wsOPEN⟩, ⟨3⟩] 1 0).1 (by decide)⟩

/-- C8.  On receipt of a realtime event for a coordinate
(participantId, dateIndex in range), the client overwrites exactly that
coordinate of the matching student with the event's status — whatever the
local (possibly optimistic) value was, since the new value does not depend
on the old one — and returns every other student, and every other date
index of the matching student, unchanged. -/
theorem realtime_event_field_granularity (students : List Student) (sid i status : Int) :
    ((applyRealtimeEvent students sid i status).length = students.length) ∧
    (∀ n : Nat, ∀ st, students[n]? = some st → st.id ≠ toString sid →
      (applyRealtimeEvent students sid i status)[n]? = some st) ∧
    (∀ n : Nat, ∀ st, students[n]? = some st → st.id = toString sid →
      0 ≤ i → i.toNat < st.attendance.length →
      ∃ st', (applyRealtimeEvent students sid i status)[n]? = some st' ∧
        st'.id = st.id ∧ st'.name = st.name ∧
        st'.attendance.length = st.attendance.length ∧
        st'.attendance[i.toNat]? = some status ∧
        ∀ j : Nat, j ≠ i.toNat → st'.attendance[j]? = st.attendance[j]?) := by
  refine ⟨List.length_map .., ?_, ?_⟩
  · intro n st hst hne
    have hbeq : (st.id == toString sid) = false := by
      rw [beq_eq_false_iff_ne]
      exact hne
    unfold applyRealtimeEvent
    rw [List.getElem?_map, hst, Option.map_some']
    rw [if_neg (by rw [hbeq]; exact Bool.false_ne_true)]
  · intro n st hst heq h0 hlt
    have hbeq : (st.id == toString sid) = true := by
      rw [beq_iff_eq]
      exact heq
    have hset : setIdxJS st.attendance i status = st.attendance.set i.toNat status := by
      unfold setIdxJS
      rw [if_pos (by omega)]
    refine ⟨{ st with attendance := st.attendance.set i.toNat status }, ?_, rfl, rfl,
      List.length_set .., List.getElem?_set_self hlt, ?_⟩
    · unfold applyRealtimeEvent
      rw [List.getElem?_map, hst, Option.map_some', if_pos hbeq, hset]
    · intro j hj
      exact List.getElem?_set_ne (fun h => hj h.symm)

/-- Witness for C8: a two-student roster, event for student 1 at index 0. -/
theorem realtime_event_field_granularity_witness :
    ([⟨"1", "가", [0, 0]⟩, ⟨"2", "나", [0, 0]⟩] : List Student)[(0 : Nat)]? =
      some ⟨"1", "가", [0, 0]⟩ ∧
    ("1" : String) = toString (1 : Int) ∧ (0 : Int) ≤ 0 ∧
    (0 : Int).toNat < ([0, 0] : List Int).length ∧
    ∃ st', (applyRealtimeEvent [⟨"1", "가", [0, 0]⟩, ⟨"2", "나", [0, 0]⟩] 1 0 1)[(0 : Nat)]? =
        some st' ∧
      st'.id = "1" ∧ st'.name = "가" ∧
      st'.attendance.length = ([0, 0] : List Int).length ∧
      st'.attendance[(0 : Int).toNat]? = some 1 ∧
      ∀ j : Nat, j ≠ (0 : Int).toNat →
        st'.attendance[j]? = ([0, 0] : List Int)[j]? :=
  ⟨by decide, by decide, by decide, by decide,
   (realtime_event_field_granularity [⟨"1", "가", [0, 0]⟩, ⟨"2", "나", [0, 0]⟩] 1 0 1).2.2
     0 ⟨"1", "가", [0, 0]⟩ (by decide) (by decide) (by decide) (by decide)⟩

/-- C9.  When the initial snapshot fetch fails, the client replaces its
state with the synthetic roster built from the fixed seed-name list — one
entry per seed name, every mark absent (0), sorted by Korean-locale name
comparison — and marks itself disconnected.  The fetch effect runs once
(empty dependency list) and the model has no transition out of this state:
no automatic retry exists. -/
theorem fetch_failure_fallback :
    (initClient none).isConnected = false ∧
    (initClient none).students = fallbackStudents ∧
    ((initClient none).students.map (·.name)).isPerm INITIAL_NAMES = true ∧
    (∀ st ∈ (initClient none).students, st.attendance = List.replicate numDates 0) ∧
    koSortedB ((initClient none).students.map (·.name)) = true := by
  exact ⟨rfl, rfl, by decide, by decide, by decide⟩

/-- C10.  The toggle endpoint's parameter check is asymmetric and
falsiness-based: a request is rejected exactly when `participantId` is
falsy (0, empty string, null, undefined, false) or `dateIndex` is literally
`undefined`.  In particular participantId 0 is rejected as missing (400,
store untouched, no broadcast) while dateIndex 0 is accepted and reaches the
database path (the toggle succeeds), and a non-undefined dateIndex such as
`null` passes the check. -/
theorem toggle_validation_asymmetry :
    (∀ s d : JSValue, toggleRejected s d = true ↔ (jsFalsy s = true ∨ d = JSValue.undefined)) ∧
    (∀ n : Int, jsFalsy (.number n) = true ↔ n = 0) ∧
    jsFalsy (.string "") = true ∧
    (∀ (db : DB) (clients : List Client) (idx : Int),
      toggleRoute db clients 0 idx = ⟨db, .badRequest, none, []⟩) ∧
    (∀ (db : DB) (clients : List Client) (sid : Int), sid ≠ 0 →
      ∃ v, (toggleRoute db clients sid 0).response = .ok v) ∧
    (∀ s : JSValue, jsFalsy s = false → toggleRejected s .null = false) := by
  refine ⟨?_, ?_, rfl, ?_, ?_, ?_⟩
  · intro s d
    simp [toggleRejected]
  · intro n
    simp [jsFalsy]
  · intro db clients idx
    exact toggleRoute_rejected db clients idx
  · intro db clients sid hsid
    cases hfind : db.attendance.find? (fun r => r.sid == sid && r.idx == 0) with
    | some row =>
        rw [@toggleRoute_found db clients sid 0 row hsid hfind]
        exact ⟨flipStatus row.status, rfl⟩
    | none =>
        rw [@toggleRoute_missing db clients sid 0 hsid hfind]
        exact ⟨1, rfl⟩
  · intro s hs
    simp [toggleRejected, hs]

/-- Witness for C10: dateIndex 0 with a valid participant is accepted and
the toggle succeeds. -/
theorem toggle_validation_asymmetry_witness :
    (1 : Int) ≠ 0 ∧ ∃ v, (toggleRoute miniDB [] 1 0).response = .ok v :=
  ⟨by decide, toggle_validation_asymmetry.2.2.2.2.1 miniDB [] 1 (by decide)⟩
